import Mathlib

/-!
# Verification of the chunk-and-merge summarization pipeline

This file embeds, as executable Lean definitions, the core of the
YouTube-video-summarizer repository:

* `src/transcript_summarizer.py` — the greedy paragraph chunker
  (`TranscriptSummarizer.split_in_chunks` and its asynchronous twin),
  the per-chunk LLM call with its strict-parse / lenient-repair protocol
  (`summarize_chunk`, `merge_summaries`), and the chunk → fan-out → merge
  orchestrators (`TranscriptSummarizer.summarize`,
  `AsyncTranscriptSummarizer.summarize`);
* `src/app.py` — the user-facing `summarize(url, language)` glue with its
  Redis-backed two-level cache.

Python strings are modelled as `List Char` where character-level reasoning
is needed (the chunker) and as Lean `String` elsewhere.  External
collaborators (the Groq LLM client, `json_repair.repair_json`, Redis, the
video downloader) are modelled as explicit oracle parameters, so every
definition here is a pure, executable function.
-/

/-- The whitespace predicate of Python's `str.strip()`, i.e. exactly the
characters for which `str.isspace()` holds: the ASCII whitespace
U+0009–U+000D and U+0020, the separators U+001C–U+001F, NEL U+0085,
NBSP U+00A0, OGHAM SPACE U+1680, the U+2000–U+200A spaces, LINE/PARAGRAPH
SEPARATOR U+2028/U+2029, NARROW NBSP U+202F, MEDIUM MATHEMATICAL SPACE
U+205F and IDEOGRAPHIC SPACE U+3000. -/
def pySpace (c : Char) : Bool :=
  (9 ≤ c.toNat && c.toNat ≤ 13) || c.toNat = 32 ||
  (28 ≤ c.toNat && c.toNat ≤ 31) || c.toNat = 0x85 || c.toNat = 0xA0 ||
  c.toNat = 0x1680 || (0x2000 ≤ c.toNat && c.toNat ≤ 0x200A) ||
  c.toNat = 0x2028 || c.toNat = 0x2029 || c.toNat = 0x202F ||
  c.toNat = 0x205F || c.toNat = 0x3000

/-- Python `str.strip()` with no arguments: drop leading and trailing
whitespace.  Implemented as: drop the trailing run (via `reverse`), then
the leading run. -/
def pyStrip (l : List Char) : List Char :=
  ((l.reverse.dropWhile pySpace).reverse).dropWhile pySpace

theorem dropWhile_length_le (p : Char → Bool) :
    ∀ l : List Char, (l.dropWhile p).length ≤ l.length := by
  intro l
  induction l with
  | nil => simp [List.dropWhile]
  | cons c rest ih =>
    by_cases h : p c
    · simp only [List.dropWhile, h]
      exact Nat.le_succ_of_le ih
    · simp [List.dropWhile, h]

/-- Helper for `splitParas` (the model of `re.split(r"\n{2,}", s)`): scan
left to right; `acc` holds the reversed characters of the paragraph being
built, `pend` the length of the newline run currently being read.  A run
of two or more newlines is a separator (the greedy `\n{2,}` consumes the
whole maximal run); a run of exactly one newline belongs to the
paragraph.  A separator at the end of the text produces a trailing empty
part, as `re.split` does. -/
def splitParasGo (acc : List Char) (pend : Nat) : List Char → List (List Char)
  | [] =>
      if 2 ≤ pend then [acc.reverse, []]
      else [acc.reverse ++ List.replicate pend '\n']
  | c :: rest =>
      if c = '\n' then splitParasGo acc (pend + 1) rest
      else if 2 ≤ pend then acc.reverse :: splitParasGo [c] 0 rest
      else splitParasGo (c :: (List.replicate pend '\n' ++ acc)) 0 rest

/-- Model of `re.split(r"\n{2,}", transcript)` from
`split_in_chunks` (src/transcript_summarizer.py:55 and :224): split the
transcript on maximal runs of two or more consecutive newlines. -/
def splitParas (transcript : List Char) : List (List Char) :=
  splitParasGo [] 0 transcript

namespace TranscriptSummarizer

/-- The accumulation loop of `TranscriptSummarizer.split_in_chunks`
(src/transcript_summarizer.py:56-67): greedily pack paragraphs into a
buffer; a paragraph that does not satisfy
`len(current_chunk) + len(paragraph) + 1 <= max_chunk_size` flushes the
stripped buffer and starts a new one; the final non-empty buffer is
flushed stripped. -/
def chunkLoop (maxChunkSize : Nat) :
    List (List Char) → List (List Char) → List Char → List (List Char)
  | [], chunks, current =>
      if current = [] then chunks else chunks ++ [pyStrip current]
  | p :: ps, chunks, current =>
      if current.length + p.length + 1 ≤ maxChunkSize then
        chunkLoop maxChunkSize ps chunks (current ++ p ++ ['\n', '\n'])
      else
        chunkLoop maxChunkSize ps (chunks ++ [pyStrip current]) (p ++ ['\n', '\n'])

/-- `TranscriptSummarizer.split_in_chunks`
(src/transcript_summarizer.py:45-69): split on paragraph breaks, pack
greedily, drop empty chunks. -/
def split_in_chunks (maxChunkSize : Nat) (transcript : List Char) :
    List (List Char) :=
  (chunkLoop maxChunkSize (splitParas transcript) [] []).filter
    (fun c => !c.isEmpty)

end TranscriptSummarizer

namespace AsyncTranscriptSummarizer

/-- The accumulation loop of `AsyncTranscriptSummarizer.split_in_chunks`
(src/transcript_summarizer.py:225-236); the source duplicates the
synchronous loop verbatim, and so does this model. -/
def chunkLoop (maxChunkSize : Nat) :
    List (List Char) → List (List Char) → List Char → List (List Char)
  | [], chunks, current =>
      if current = [] then chunks else chunks ++ [pyStrip current]
  | p :: ps, chunks, current =>
      if current.length + p.length + 1 ≤ maxChunkSize then
        chunkLoop maxChunkSize ps chunks (current ++ p ++ ['\n', '\n'])
      else
        chunkLoop maxChunkSize ps (chunks ++ [pyStrip current]) (p ++ ['\n', '\n'])

/-- `AsyncTranscriptSummarizer.split_in_chunks`
(src/transcript_summarizer.py:214-238), a verbatim copy of the
synchronous implementation (both call the same `re.split`). -/
def split_in_chunks (maxChunkSize : Nat) (transcript : List Char) :
    List (List Char) :=
  (chunkLoop maxChunkSize (splitParas transcript) [] []).filter
    (fun c => !c.isEmpty)

end AsyncTranscriptSummarizer

/-! ## Auxiliary vocabulary for the chunker proofs -/

/-- The buffer text produced by accumulating the paragraphs `s` into
`current_chunk`: each paragraph followed by the `"\n\n"` the code appends. -/
def flat : List (List Char) → List Char
  | [] => []
  | p :: ps => p ++ '\n' :: '\n' :: flat ps

/-- Paragraphs joined by the two-newline separator, with no trailing
separator (the shape of the original transcript when every separator run
is exactly two newlines). -/
def joinSep : List (List Char) → List Char
  | [] => []
  | [p] => p
  | p :: ps => p ++ '\n' :: '\n' :: joinSep ps

/-- Does the text start with two newlines? -/
def startsNN : List Char → Bool
  | c :: d :: _ => c = '\n' && d = '\n'
  | _ => false

/-- Does the text contain three consecutive newlines anywhere?  When it
does not, every separator run found by `re.split(r"\n{2,}", ·)` is exactly
`"\n\n"`. -/
def hasTripleNL : List Char → Bool
  | [] => false
  | c :: rest => (c = '\n' && startsNN rest) || hasTripleNL rest

theorem flat_append (a b : List (List Char)) :
    flat (a ++ b) = flat a ++ flat b := by
  induction a with
  | nil => simp [flat]
  | cons p ps ih => simp [flat, ih]

theorem flat_cons_ne_nil (p : List Char) (ps : List (List Char)) :
    flat (p :: ps) ≠ [] := by
  simp [flat]

theorem flat_eq_joinSep (ps : List (List Char)) (h : ps ≠ []) :
    flat ps = joinSep ps ++ ['\n', '\n'] := by
  induction ps with
  | nil => exact absurd rfl h
  | cons p ps ih =>
    cases ps with
    | nil => simp [flat, joinSep]
    | cons q qs =>
      have hqs : flat (q :: qs) = joinSep (q :: qs) ++ ['\n', '\n'] :=
        ih (by simp)
      show p ++ '\n' :: '\n' :: flat (q :: qs) =
        (p ++ '\n' :: '\n' :: joinSep (q :: qs)) ++ ['\n', '\n']
      rw [hqs]
      simp

theorem length_flat_ge_of_mem {p : List Char} {ps : List (List Char)}
    (h : p ∈ ps) : p.length + 2 ≤ (flat ps).length := by
  induction ps with
  | nil => cases h
  | cons q qs ih =>
    rcases List.mem_cons.mp h with rfl | h'
    · simp only [flat, List.length_append, List.length_cons]
      omega
    · have := ih h'
      simp only [flat, List.length_append, List.length_cons]
      omega

theorem dropWhile_append_all {w b : List Char} {p : Char → Bool}
    (h : ∀ c ∈ w, p c) : (w ++ b).dropWhile p = b.dropWhile p := by
  induction w with
  | nil => simp
  | cons c cs ih =>
    have hc : p c := h c (by simp)
    simp only [List.cons_append, List.dropWhile_cons, hc, if_true]
    exact ih (fun d hd => h d (by simp [hd]))

theorem dropWhile_eq_nil_of_all {w : List Char} {p : Char → Bool}
    (h : ∀ c ∈ w, p c) : w.dropWhile p = [] := by
  have := dropWhile_append_all (b := []) h
  simpa using this

theorem mem_dropWhile_of_not {c : Char} {l : List Char} {p : Char → Bool}
    (h : c ∈ l) (hc : ¬ p c) : c ∈ l.dropWhile p := by
  induction l with
  | nil => cases h
  | cons d ds ih =>
    by_cases hd : p d
    · simp only [List.dropWhile_cons, hd, if_true]
      rcases List.mem_cons.mp h with rfl | h'
      · exact absurd hd hc
      · exact ih h'
    · simpa [List.dropWhile_cons, hd] using h

theorem pyStrip_nil : pyStrip [] = [] := by decide

theorem pyStrip_append_ws {y w : List Char} (h : ∀ c ∈ w, pySpace c) :
    pyStrip (y ++ w) = pyStrip y := by
  unfold pyStrip
  rw [List.reverse_append,
    dropWhile_append_all (fun c hc => h c (List.mem_reverse.mp hc))]

theorem pyStrip_append_nn (y : List Char) :
    pyStrip (y ++ ['\n', '\n']) = pyStrip y := by
  apply pyStrip_append_ws
  intro c hc
  rcases List.mem_cons.mp hc with rfl | hc'
  · decide
  · simp at hc'
    subst hc'
    decide

theorem pyStrip_length_le (l : List Char) : (pyStrip l).length ≤ l.length := by
  unfold pyStrip
  calc ((l.reverse.dropWhile pySpace).reverse.dropWhile pySpace).length
      ≤ (l.reverse.dropWhile pySpace).reverse.length :=
        dropWhile_length_le _ _
    _ = (l.reverse.dropWhile pySpace).length := List.length_reverse _
    _ ≤ l.reverse.length := dropWhile_length_le _ _
    _ = l.length := List.length_reverse _

theorem pyStrip_ne_nil_of_mem {c : Char} {l : List Char}
    (h : c ∈ l) (hc : ¬ pySpace c) : pyStrip l ≠ [] := by
  unfold pyStrip
  have h1 : c ∈ l.reverse.dropWhile pySpace :=
    mem_dropWhile_of_not (List.mem_reverse.mpr h) hc
  have h2 : c ∈ (l.reverse.dropWhile pySpace).reverse.dropWhile pySpace :=
    mem_dropWhile_of_not (List.mem_reverse.mpr h1) hc
  exact List.ne_nil_of_mem h2

theorem pyStrip_eq_nil_of_all_ws {l : List Char} (h : ∀ c ∈ l, pySpace c) :
    pyStrip l = [] := by
  unfold pyStrip
  rw [dropWhile_eq_nil_of_all (fun c hc => h c (List.mem_reverse.mp hc))]
  simp [List.dropWhile]

/-! ## The sync and async chunkers coincide (C10) -/

theorem chunkLoop_sync_eq_async (m : Nat) :
    ∀ (ps chunks : List (List Char)) (current : List Char),
    TranscriptSummarizer.chunkLoop m ps chunks current =
      AsyncTranscriptSummarizer.chunkLoop m ps chunks current := by
  intro ps
  induction ps with
  | nil =>
    intro chunks current
    rfl
  | cons p ps ih =>
    intro chunks current
    simp only [TranscriptSummarizer.chunkLoop, AsyncTranscriptSummarizer.chunkLoop]
    split
    · exact ih _ _
    · exact ih _ _

/-- C10: for every transcript and every `max_chunk_size`, the synchronous
`TranscriptSummarizer.split_in_chunks` and the asynchronous
`AsyncTranscriptSummarizer.split_in_chunks` compute exactly the same list
of chunks (the two chunker implementations, duplicated verbatim in the
source, are extensionally equal). -/
theorem C10_sync_async_chunkers_extensionally_equal
    (maxChunkSize : Nat) (transcript : List Char) :
    TranscriptSummarizer.split_in_chunks maxChunkSize transcript =
      AsyncTranscriptSummarizer.split_in_chunks maxChunkSize transcript := by
  unfold TranscriptSummarizer.split_in_chunks
    AsyncTranscriptSummarizer.split_in_chunks
  rw [chunkLoop_sync_eq_async]

/-! ## Behaviour of the chunk loop when everything fits (towards C2) -/

/-- When the whole remaining paragraph text fits within
`maxChunkSize + 1` characters of buffer, the loop accumulates everything
into one final chunk. -/
theorem chunkLoop_all_fit (m : Nat) :
    ∀ (ps chunks : List (List Char)) (cur : List Char),
    cur.length + (flat ps).length ≤ m + 1 →
    TranscriptSummarizer.chunkLoop m ps chunks cur =
      (if cur ++ flat ps = [] then chunks
       else chunks ++ [pyStrip (cur ++ flat ps)]) := by
  intro ps
  induction ps with
  | nil =>
    intro chunks cur _
    simp [TranscriptSummarizer.chunkLoop, flat]
  | cons p ps ih =>
    intro chunks cur hlen
    have hflat : (flat (p :: ps)).length = p.length + 2 + (flat ps).length := by
      simp [flat]
      omega
    have hfit : cur.length + p.length + 1 ≤ m := by
      rw [hflat] at hlen
      omega
    simp only [TranscriptSummarizer.chunkLoop, if_pos hfit]
    have hrec := ih chunks (cur ++ p ++ ['\n', '\n'])
      (by simp only [List.length_append, List.length_cons, List.length_nil]
          rw [hflat] at hlen
          omega)
    rw [hrec]
    have harr : (cur ++ p ++ ['\n', '\n']) ++ flat ps = cur ++ flat (p :: ps) := by
      show (cur ++ p ++ ['\n', '\n']) ++ flat ps =
        cur ++ (p ++ '\n' :: '\n' :: flat ps)
      simp
    rw [harr]

/-! ## Reconstructing the transcript from its paragraphs (towards C2) -/

theorem joinSep_cons_of_ne_nil (p : List Char) {ps : List (List Char)}
    (h : ps ≠ []) : joinSep (p :: ps) = p ++ '\n' :: '\n' :: joinSep ps := by
  cases ps with
  | nil => exact absurd rfl h
  | cons q qs => rfl

theorem hasTripleNL_cons {c : Char} {l : List Char}
    (h : hasTripleNL (c :: l) = false) : hasTripleNL l = false := by
  rw [show hasTripleNL (c :: l) = ((c = '\n' && startsNN l) || hasTripleNL l)
    from rfl] at h
  exact (Bool.or_eq_false_iff.mp h).2

theorem hasTripleNL_append {x y : List Char}
    (h : hasTripleNL (x ++ y) = false) : hasTripleNL y = false := by
  induction x with
  | nil => exact h
  | cons c cs ih => exact ih (hasTripleNL_cons h)

theorem hasTripleNL_three_nl (y : List Char) :
    hasTripleNL ('\n' :: '\n' :: '\n' :: y) = true := by
  rw [show hasTripleNL ('\n' :: '\n' :: '\n' :: y) =
    ((('\n' : Char) = '\n' && startsNN ('\n' :: '\n' :: y)) ||
      hasTripleNL ('\n' :: '\n' :: y)) from rfl]
  simp [startsNN]

theorem pend_le_two_of_no_triple {p : Nat} {x : List Char}
    (h : hasTripleNL (List.replicate p '\n' ++ x) = false) : p ≤ 2 := by
  by_contra hlt
  obtain ⟨q, rfl⟩ : ∃ q, p = q + 3 := ⟨p - 3, by omega⟩
  rw [show List.replicate (q + 3) '\n' ++ x =
    '\n' :: '\n' :: '\n' :: (List.replicate q '\n' ++ x) by
      simp [List.replicate_succ]] at h
  rw [hasTripleNL_three_nl] at h
  simp at h

theorem replicate_nl_succ (p : Nat) (x : List Char) :
    List.replicate (p + 1) '\n' ++ x = List.replicate p '\n' ++ '\n' :: x := by
  rw [List.replicate_succ']
  simp

theorem splitParasGo_ne_nil :
    ∀ (t acc : List Char) (pend : Nat), splitParasGo acc pend t ≠ [] := by
  intro t
  induction t with
  | nil =>
    intro acc pend
    unfold splitParasGo
    split <;> simp
  | cons c rest ih =>
    intro acc pend
    unfold splitParasGo
    split
    · exact ih _ _
    · split
      · simp
      · exact ih _ _

/-- With no triple newline in the text, rejoining the split paragraphs
with `"\n\n"` reproduces the text: every separator run was exactly two
newlines. -/
theorem joinSep_splitParasGo :
    ∀ (t acc : List Char) (pend : Nat),
    hasTripleNL (List.replicate pend '\n' ++ t) = false →
    joinSep (splitParasGo acc pend t) =
      acc.reverse ++ List.replicate pend '\n' ++ t := by
  intro t
  induction t with
  | nil =>
    intro acc pend h
    unfold splitParasGo
    split
    · rename_i hp
      have h2 : pend ≤ 2 := pend_le_two_of_no_triple h
      have hpe : pend = 2 := by omega
      subst hpe
      simp [joinSep]
    · simp [joinSep]
  | cons c rest ih =>
    intro acc pend h
    unfold splitParasGo
    split
    · rename_i hc
      subst hc
      rw [ih acc (pend + 1) (by rw [replicate_nl_succ]; exact h)]
      simp [List.replicate_succ']
    · rename_i hc
      split
      · rename_i hp
        have h2 : pend ≤ 2 := pend_le_two_of_no_triple h
        have hpe : pend = 2 := by omega
        subst hpe
        have hrest : hasTripleNL rest = false := by
          have hx := hasTripleNL_append
            (x := List.replicate 2 '\n' ++ [c]) (y := rest)
          apply hx
          simpa using h
        rw [joinSep_cons_of_ne_nil _ (splitParasGo_ne_nil rest [c] 0)]
        rw [ih [c] 0 (by simpa using hrest)]
        simp
      · rename_i hp
        have hrest : hasTripleNL rest = false := by
          have hx := hasTripleNL_append
            (x := List.replicate pend '\n' ++ [c]) (y := rest)
          apply hx
          simpa using h
        rw [ih (c :: (List.replicate pend '\n' ++ acc)) 0 (by simpa using hrest)]
        simp

theorem splitParas_ne_nil (t : List Char) : splitParas t ≠ [] :=
  splitParasGo_ne_nil t [] 0

theorem flat_splitParas (t : List Char) (h : hasTripleNL t = false) :
    flat (splitParas t) = t ++ ['\n', '\n'] := by
  rw [flat_eq_joinSep _ (splitParas_ne_nil t)]
  rw [show joinSep (splitParas t) = t by
    have := joinSep_splitParasGo t [] 0 (by simpa using h)
    simpa [splitParas] using this]

/-! ## Claim C2 -/

/-- C2, counterexample.  The claim "for every transcript whose total
length is at most `max_chunk_size`, `split_in_chunks` returns a list of
exactly one chunk, and that chunk equals the whitespace-trimmed input" is
false as stated, in three independent ways:
1. at total length exactly `max_chunk_size` the `+ 1` in the fit test can
   split a small transcript in two (`"ab\n\nc"` with bound 5);
2. a separator run of more than two newlines is normalised to `"\n\n"`
   inside the single chunk, so the chunk differs from the trimmed input
   (`"a\n\n\nb"`);
3. the empty transcript yields zero chunks, not one. -/
theorem C2_counterexample :
    ("ab\n\nc".toList.length ≤ 5 ∧
      TranscriptSummarizer.split_in_chunks 5 "ab\n\nc".toList ≠
        [pyStrip "ab\n\nc".toList]) ∧
    ("a\n\n\nb".toList.length ≤ 1000 ∧
      TranscriptSummarizer.split_in_chunks 1000 "a\n\n\nb".toList ≠
        [pyStrip "a\n\n\nb".toList]) ∧
    (("" : String).toList.length ≤ 1000 ∧
      TranscriptSummarizer.split_in_chunks 1000 ("" : String).toList ≠
        [pyStrip ("" : String).toList]) := by
  decide

/-- C2, amended.  For every transcript of length strictly less than
`max_chunk_size` that contains at least one non-whitespace character and
in which every paragraph-separator run is exactly two newlines (no three
consecutive newlines), `split_in_chunks` returns exactly one chunk, and
that chunk equals the whitespace-trimmed input transcript. -/
theorem C2_small_transcript_single_trimmed_chunk
    (maxChunkSize : Nat) (transcript : List Char)
    (hlen : transcript.length < maxChunkSize)
    (hsep : hasTripleNL transcript = false)
    (hcontent : ∃ c ∈ transcript, ¬ pySpace c) :
    TranscriptSummarizer.split_in_chunks maxChunkSize transcript =
      [pyStrip transcript] := by
  unfold TranscriptSummarizer.split_in_chunks
  have hflat : flat (splitParas transcript) = transcript ++ ['\n', '\n'] :=
    flat_splitParas transcript hsep
  have hfit : ([] : List Char).length + (flat (splitParas transcript)).length ≤
      maxChunkSize + 1 := by
    rw [hflat]
    simp
    omega
  rw [chunkLoop_all_fit maxChunkSize (splitParas transcript) [] [] hfit]
  rw [List.nil_append, hflat]
  rw [if_neg (by simp)]
  rw [pyStrip_append_nn]
  obtain ⟨c, hc, hcs⟩ := hcontent
  have hne : pyStrip transcript ≠ [] := pyStrip_ne_nil_of_mem hc hcs
  have : (pyStrip transcript).isEmpty = false := by
    cases h : pyStrip transcript with
    | nil => exact absurd h hne
    | cons _ _ => rfl
  simp [List.filter, this]

/-- C2, witness: the amended theorem applied at a concrete transcript. -/
theorem C2_witness :
    TranscriptSummarizer.split_in_chunks 1000 "ab\n\ncd".toList =
      [pyStrip "ab\n\ncd".toList] :=
  C2_small_transcript_single_trimmed_chunk 1000 "ab\n\ncd".toList
    (by decide) (by decide) (by decide)

/-! ## Segment decomposition of the chunk loop (towards C4 and C5) -/

theorem flat_eq_nil_iff (s : List (List Char)) : flat s = [] ↔ s = [] := by
  cases s with
  | nil => simp [flat]
  | cons p ps => simp [flat]

/-- Master description of the accumulation loop: starting from a buffer
holding the paragraphs `curSeg`, the loop partitions `curSeg ++ ps` into
consecutive segments, emits exactly the stripped flattenings of those
segments (in order), and every emitted segment either fits in
`maxChunkSize + 1` buffer characters or is a single paragraph; a
paragraph longer than `maxChunkSize` is always alone in its segment. -/
theorem chunkLoop_segments (m : Nat) :
    ∀ (ps curSeg chunks : List (List Char)),
    ((flat curSeg).length ≤ m + 1 ∨ ∃ p, curSeg = [p]) →
    (∀ p ∈ curSeg, m < p.length → curSeg = [p]) →
    ∃ segs : List (List (List Char)),
      TranscriptSummarizer.chunkLoop m ps chunks (flat curSeg) =
        chunks ++ segs.map (fun s => pyStrip (flat s)) ∧
      segs.flatten = curSeg ++ ps ∧
      (∀ s ∈ segs, (flat s).length ≤ m + 1 ∨ ∃ p, s = [p]) ∧
      (∀ s ∈ segs, ∀ p ∈ s, m < p.length → s = [p]) := by
  intro ps
  induction ps with
  | nil =>
    intro curSeg chunks hP hiso
    by_cases hnil : curSeg = []
    · subst hnil
      refine ⟨[], ?_, by simp, by simp, by simp⟩
      simp [TranscriptSummarizer.chunkLoop, flat]
    · refine ⟨[curSeg], ?_, by simp, ?_, ?_⟩
      · have hfne : flat curSeg ≠ [] := fun h => hnil ((flat_eq_nil_iff _).mp h)
        simp [TranscriptSummarizer.chunkLoop, hfne]
      · intro s hs
        rw [List.mem_singleton] at hs
        subst hs
        exact hP
      · intro s hs
        rw [List.mem_singleton] at hs
        subst hs
        exact hiso
  | cons p ps ih =>
    intro curSeg chunks hP hiso
    by_cases hfit : (flat curSeg).length + p.length + 1 ≤ m
    · have harr : flat curSeg ++ p ++ ['\n', '\n'] = flat (curSeg ++ [p]) := by
        rw [flat_append]
        simp [flat]
      have hP' : (flat (curSeg ++ [p])).length ≤ m + 1 ∨ ∃ q, curSeg ++ [p] = [q] := by
        left
        rw [flat_append]
        simp only [List.length_append]
        have : (flat [p]).length = p.length + 2 := by
          simp [flat]
        omega
      have hiso' : ∀ q ∈ curSeg ++ [p], m < q.length → curSeg ++ [p] = [q] := by
        intro q hq hlong
        exfalso
        rcases List.mem_append.mp hq with hq | hq
        · have := length_flat_ge_of_mem hq
          omega
        · rw [List.mem_singleton] at hq
          subst hq
          omega
      obtain ⟨segs, h1, h2, h3, h4⟩ := ih (curSeg ++ [p]) chunks hP' hiso'
      refine ⟨segs, ?_, ?_, h3, h4⟩
      · rw [show TranscriptSummarizer.chunkLoop m (p :: ps) chunks (flat curSeg) =
          TranscriptSummarizer.chunkLoop m ps chunks
            (flat curSeg ++ p ++ ['\n', '\n']) by
            simp [TranscriptSummarizer.chunkLoop, hfit]]
        rw [harr]
        exact h1
      · rw [h2]
        simp
    · have hP' : (flat [p]).length ≤ m + 1 ∨ ∃ q, ([p] : List (List Char)) = [q] :=
        Or.inr ⟨p, rfl⟩
      have hiso' : ∀ q ∈ ([p] : List (List Char)), m < q.length → ([p] : List (List Char)) = [q] := by
        intro q hq _
        rw [List.mem_singleton] at hq
        subst hq
        rfl
      obtain ⟨segs, h1, h2, h3, h4⟩ :=
        ih [p] (chunks ++ [pyStrip (flat curSeg)]) hP' hiso'
      refine ⟨curSeg :: segs, ?_, ?_, ?_, ?_⟩
      · rw [show TranscriptSummarizer.chunkLoop m (p :: ps) chunks (flat curSeg) =
          TranscriptSummarizer.chunkLoop m ps
            (chunks ++ [pyStrip (flat curSeg)]) (p ++ ['\n', '\n']) by
            simp [TranscriptSummarizer.chunkLoop, hfit]]
        rw [show p ++ ['\n', '\n'] = flat [p] by simp [flat]]
        rw [h1]
        simp
      · simp only [List.flatten_cons, h2]
        simp
      · intro s hs
        rcases List.mem_cons.mp hs with rfl | hs
        · exact hP
        · exact h3 s hs
      · intro s hs
        rcases List.mem_cons.mp hs with rfl | hs
        · exact hiso
        · exact h4 s hs

/-! ## Claim C4 -/

/-- C4, counterexample.  The claim "the chunks contain every non-empty
paragraph of the input, with no paragraph dropped" is false as stated: in
`"x\n\n "` the second paragraph `" "` is a non-empty string, yet the
output consists of the single chunk `"x"`, whose text does not contain
`" "` — a non-empty (whitespace-only) paragraph is dropped entirely, and
edge paragraphs are in general whitespace-trimmed. -/
theorem C4_counterexample :
    " ".toList ∈ splitParas "x\n\n ".toList ∧ " ".toList ≠ [] ∧
    TranscriptSummarizer.split_in_chunks 1000 "x\n\n ".toList = ["x".toList] := by
  decide

/-- C4, amended.  For every transcript and bound, the chunk list is
obtained by partitioning the paragraph list into consecutive segments (in
original order, nothing dropped, nothing duplicated, nothing reordered),
emitting each segment as its paragraphs joined by `"\n\n"` and
whitespace-trimmed, and dropping the chunks that trim to empty (which
happens only for all-whitespace segments). -/
theorem C4_chunks_are_trimmed_segment_partition
    (maxChunkSize : Nat) (transcript : List Char) :
    ∃ segs : List (List (List Char)),
      segs.flatten = splitParas transcript ∧
      TranscriptSummarizer.split_in_chunks maxChunkSize transcript =
        (segs.map (fun s => pyStrip (flat s))).filter (fun c => !c.isEmpty) := by
  obtain ⟨segs, h1, h2, _h3, _h4⟩ :=
    chunkLoop_segments maxChunkSize (splitParas transcript) [] []
      (Or.inl (by simp [flat])) (by intro p hp; cases hp)
  refine ⟨segs, by simpa using h2, ?_⟩
  unfold TranscriptSummarizer.split_in_chunks
  rw [show flat ([] : List (List Char)) = [] from rfl] at h1
  rw [h1]
  simp

/-! ## Claim C5 -/

/-- C5, counterexample.  The claim "an oversized paragraph becomes its own
chunk unmodified (not split, not truncated, not dropped)" is false as
stated, in two ways:
1. with bound 3, the single oversized paragraph `" abcd"` becomes the
   chunk `"abcd"` — whitespace-trimmed, hence modified, and the original
   paragraph text is not among the chunks;
2. with bound 2, the oversized whitespace-only paragraph `"    "` (between
   `"a"` and `"b"`) strips to the empty string and is dropped entirely. -/
theorem C5_counterexample :
    (splitParas " abcd".toList = [" abcd".toList] ∧
      3 < " abcd".toList.length ∧
      TranscriptSummarizer.split_in_chunks 3 " abcd".toList = ["abcd".toList] ∧
      " abcd".toList ∉ TranscriptSummarizer.split_in_chunks 3 " abcd".toList) ∧
    (splitParas "a\n\n    \n\nb".toList =
        ["a".toList, "    ".toList, "b".toList] ∧
      2 < "    ".toList.length ∧
      TranscriptSummarizer.split_in_chunks 2 "a\n\n    \n\nb".toList =
        ["a".toList, "b".toList]) := by
  decide

/-- C5, amended.  For every transcript and every bound `maxChunkSize`:
(1) each returned chunk has length at most `maxChunkSize`, except when it
is the whitespace-trimming of a single paragraph whose own length exceeds
`maxChunkSize`; (2) every paragraph longer than `maxChunkSize` appears as
its own chunk, whitespace-trimmed but otherwise unmodified (not split,
not combined with another paragraph), unless it trims to the empty string
(whitespace-only), in which case it is dropped. -/
theorem C5_chunk_size_bound_except_oversized_paragraph
    (maxChunkSize : Nat) (transcript : List Char) :
    (∀ c ∈ TranscriptSummarizer.split_in_chunks maxChunkSize transcript,
      c.length ≤ maxChunkSize ∨
        ∃ p ∈ splitParas transcript,
          c = pyStrip p ∧ maxChunkSize < p.length) ∧
    (∀ p ∈ splitParas transcript, maxChunkSize < p.length → pyStrip p ≠ [] →
      pyStrip p ∈ TranscriptSummarizer.split_in_chunks maxChunkSize transcript) := by
  obtain ⟨segs, h1, h2, h3, h4⟩ :=
    chunkLoop_segments maxChunkSize (splitParas transcript) [] []
      (Or.inl (by simp [flat])) (by intro p hp; cases hp)
  rw [show flat ([] : List (List Char)) = [] from rfl] at h1
  have hout : TranscriptSummarizer.split_in_chunks maxChunkSize transcript =
      (segs.map (fun s => pyStrip (flat s))).filter (fun c => !c.isEmpty) := by
    unfold TranscriptSummarizer.split_in_chunks
    rw [h1]
    simp
  have hjoin : segs.flatten = splitParas transcript := by simpa using h2
  constructor
  · intro c hc
    rw [hout] at hc
    have hc' := List.mem_filter.mp hc
    obtain ⟨s, hs, hcs⟩ := List.mem_map.mp hc'.1
    have hcne : c ≠ [] := by
      intro h
      rw [h] at hc'
      simp at hc'
    rcases h3 s hs with hsmall | ⟨p, rfl⟩
    · left
      have hsne : s ≠ [] := by
        intro h
        subst h
        rw [show flat ([] : List (List Char)) = [] from rfl] at hcs
        exact hcne (hcs.symm.trans (by decide))
      have hfl : flat s = joinSep s ++ ['\n', '\n'] := flat_eq_joinSep s hsne
      have : c = pyStrip (joinSep s) := by
        rw [← hcs, hfl, pyStrip_append_nn]
      have hlen1 : (pyStrip (joinSep s)).length ≤ (joinSep s).length :=
        pyStrip_length_le _
      have hlen2 : (joinSep s).length + 2 = (flat s).length := by
        rw [hfl]
        simp
      rw [this]
      omega
    · have hcp : c = pyStrip p := by
        rw [← hcs]
        rw [show flat [p] = p ++ ['\n', '\n'] by simp [flat]]
        exact pyStrip_append_nn p
      by_cases hsize : c.length ≤ maxChunkSize
      · exact Or.inl hsize
      · right
        refine ⟨p, ?_, hcp, ?_⟩
        · rw [← hjoin]
          exact List.mem_flatten.mpr ⟨[p], hs, by simp⟩
        · have := pyStrip_length_le p
          rw [hcp] at hsize
          omega
  · intro p hp hlong hne
    rw [← hjoin] at hp
    obtain ⟨s, hs, hps⟩ := List.mem_flatten.mp hp
    have hsp : s = [p] := h4 s hs p hps hlong
    subst hsp
    rw [hout]
    apply List.mem_filter.mpr
    constructor
    · apply List.mem_map.mpr
      refine ⟨[p], hs, ?_⟩
      rw [show flat [p] = p ++ ['\n', '\n'] by simp [flat]]
      exact pyStrip_append_nn p
    · cases h : pyStrip p with
      | nil => exact absurd h hne
      | cons _ _ => simp

/-- C5, witness: the amended theorem applied at a concrete oversized
paragraph. -/
theorem C5_witness :
    pyStrip " abcde".toList ∈
      TranscriptSummarizer.split_in_chunks 3 " abcde".toList :=
  (C5_chunk_size_bound_except_oversized_paragraph 3 " abcde".toList).2
    " abcde".toList (by decide) (by decide) (by decide)

/-! ## The LLM call layer: structured results, strict parse, lenient repair -/

/-- `CHUNK_SUMMARIZER_PROMPT` from src/prompts/summarizer_prompts.py (the exact string
value of the Python constant). -/
def CHUNK_SUMMARIZER_PROMPT : String :=
  "Your task is to summarize the key information from a transcript chunk (an excerpt from the transcript of a YouTube video, typically 1000 words long) in the form of clear, concise bullet points and a title. \n\nFollow these steps:\n\n1. Carefully read the transcript chunk to identify the most important points, arguments, takeaways, and conclusions. \n2. Organize the key information into a logical bullet point structure.\n3. Write the summary and title, following these specifications:\n    - The bullet point summary should:\n        - Capture the essential information needed to understand the main points \n        - Be concise yet comprehensive (aim for 4-7 bullet points, each 1-2 sentences long)\n        - Maintain logical coherence \n    - The title should:\n        - Concisely summarize the main topic or overarching message of the chunk\n        - Be 5-10 words long\n    - Write in the same language as the input chunk\n\nProvide your output in this JSON format:\n<json>\n\x7b\n  \"scratchpad\": \"Your notes and thoughts for steps 1 and 2 go here.\",\n  \"summary\": \"## Chunk Title\n\nBullet point 1\nBullet point 2\n...\",\n\x7d\n</json>\n\nExample of desired output for a transcript chunk about the benefits of meditation:\n<example_json>\n\x7b\n  \"scratchpad\": \"Key points: meditation reduces stress, anxiety, depression; improves focus, memory, emotional regulation; enhances self-awareness, well-being; short daily sessions effective. \nMain takeaway: meditation provides significant mental health and cognitive benefits.\nLogical bullet point structure: 1) Mental health benefits 2) Cognitive improvements 3) Self-awareness and well-being 4) Effective even in short sessions\",\n  \"summary\": \"## The Science-Backed Benefits of Meditation\n\nMeditation can reduce stress, anxiety and depression symptoms\nRegular practice improves focus, memory and emotional regulation\nMeditation enhances self-awareness and overall well-being\nEven short daily meditation sessions of 10 minutes can provide benefits\",\n\x7d\n</example_json>\n\nNote: even if your input is empty, please provide a valid JSON object with the keys \"scratchpad\", \"summary\" to maintain consistency.\nNote: to generate a valid JSON object, be extra cautious to start your JSON object with \x60\x7b\x60 and end it with \x60\x7d\x60.\nNote: don\x27t forget to write the summary in the \"summary\" key/value of the JSON object.\n"

/-- `SUMMARIES_MERGER_PROMPT` from src/prompts/summarizer_prompts.py (the exact string
value of the Python constant). -/
def SUMMARIES_MERGER_PROMPT : String :=
  "Your task is to compile the individual chunk summaries from a YouTube video transcript into a coherent, well-structured, and insightful overall summary. The summary should include a main title, sub-sections with sub-titles, and informative bullet points that capture the key ideas and takeaways from the video.\n\nFollow these steps:\n\n1. Review all the individual chunk summaries to identify overarching themes, main arguments, and crucial conclusions.\n2. Group related points together and organize them into logical sub-sections.\n3. Write the comprehensive summary, following these specifications:\n   - Main Title:\n     - Concisely capture the central topic or main message of the entire video\n     - Should be attention-grabbing and informative\n     - Aim for 5-10 words\n   - Sub-Sections:\n     - Organize the content into logical sub-sections based on the overarching themes or main points identified\n     - Each sub-section should have a clear and descriptive sub-title\n     - Aim for 3-5 sub-sections, depending on the length and complexity of the video\n   - Bullet Points:\n     - Under each sub-section, present the key ideas, arguments, and takeaways as concise and informative bullet points\n     - Ensure the bullet points capture the essential information while maintaining logical coherence within and between sub-sections\n     - Aim for 3-6 bullet points per sub-section\n   - Language:\n     - Write in the same language as the input chunk summaries\n     - Use clear, concise, and engaging language that effectively conveys the main ideas\n\nProvide your output in this JSON format:\n<json>\n\x7b\n  \"scratchpad\": \"Your notes and thoughts for steps 1 and 2 go here.\",\n  \"summary\": \"# Main Title\n\n## Sub-Title 1\n- Bullet point 1\n- Bullet point 2\n...\n\n## Sub-Title 2\n- Bullet point 1\n- Bullet point 2\n...\",\n\x7d\n</json>\n\nExample of desired output for a video about the benefits and techniques of meditation:\n<example_json>\n\x7b\n  \"scratchpad\": \"Overarching themes: mental health benefits, cognitive improvements, self-awareness, getting started with meditation\nMain points: reduces stress/anxiety/depression, improves focus/memory/emotional regulation, enhances well-being, short sessions effective, simple techniques\nSub-sections: 1) Mental health benefits 2) Cognitive benefits 3) Meditation and self-awareness 4) Getting started\",\n  \"summary\": \"# The Power of Meditation: Improve Your Mind and Well-Being\n\n## Mental Health Benefits\n- Meditation can significantly reduce symptoms of stress, anxiety, and depression\n- Regular practice helps regulate emotions and promotes a more positive mood\n- Meditation can be an effective complementary treatment for various mental health conditions\n\n## Cognitive Improvements\n- Consistent meditation practice enhances focus, attention, and memory retention\n- Meditators often experience improved problem-solving and decision-making skills\n- Meditation can help maintain cognitive function and may slow age-related cognitive decline\n\n## Meditation and Self-Awareness\n- Practicing meditation cultivates a deeper sense of self-awareness and introspection\n- Meditators often report increased emotional intelligence and better self-regulation\n- Meditation can foster a greater sense of connection and empathy towards others\n\n## Getting Started with Meditation\n- Even short daily meditation sessions of 10-15 minutes can provide significant benefits\n- Simple techniques like focusing on the breath or a mantra can be powerful starting points\n- Consistency and patience are key to establishing a sustainable meditation practice\"\n\x7d\n</example_json>\n\nNote: even if your input is empty, please provide a valid JSON object with the keys \"scratchpad\" and \"summary\", and empty strings \"\" as values, to maintain consistency.\nNote: to generate a valid JSON object, be extra cautious to start your JSON object with \x60\x7b\x60 and end it with \x60\x7d\x60.\nNote: don\x27t forget to write the summary in the \"summary\" key/value of the JSON object.\n"

/-- A JSON value (the shape of what the LLM returns and what
`json_repair.repair_json(..., return_objects=True)` produces). -/
inductive JVal where
  | null
  | bool (b : Bool)
  | num (n : Int)
  | str (s : String)
  | arr (elems : List JVal)
  | obj (fields : List (String × JVal))

/-- The raw text of an LLM response (or of a `failed_generation` payload):
semantically, either it is valid JSON denoting some value, or it is not
valid JSON. -/
inductive RawText where
  | jsonText (v : JVal)
  | plainText (s : String)

/-- Strict JSON parsing of raw text, as performed by
`ResponseModel.model_validate_json` before field validation. -/
def parseJson : RawText → Option JVal
  | .jsonText v => some v
  | .plainText _ => none

/-- First-match association lookup in a JSON object's field list. -/
def lookupField (key : String) : List (String × JVal) → Option JVal
  | [] => none
  | (k, v) :: rest => if k = key then some v else lookupField key rest

/-- A JSON value usable for a pydantic `str` field. -/
def asString : JVal → Option String
  | .str s => some s
  | _ => none

/-- `ResponseModel` (src/transcript_summarizer.py:17-19): the
StructuredResult of the spec — a reasoning scratchpad and a summary, both
required strings. -/
structure ResponseModel where
  scratchpad : String
  summary : String
deriving DecidableEq

/-- Pydantic `ResponseModel.model_validate` on a parsed JSON value: the
value must be an object with string fields `scratchpad` and `summary`
(extra fields are ignored); anything else raises `ValidationError`
(modelled as `none`). -/
def model_validate : JVal → Option ResponseModel
  | .obj fields =>
      match (lookupField "scratchpad" fields).bind asString,
            (lookupField "summary" fields).bind asString with
      | some sc, some su => some ⟨sc, su⟩
      | _, _ => none
  | _ => none

/-- `ResponseModel.model_validate_json`: strict JSON parse followed by
field validation; invalid JSON is also a `ValidationError`. -/
def model_validate_json (t : RawText) : Option ResponseModel :=
  (parseJson t).bind model_validate

/-- The exception outcomes of one LLM call + parse/repair round
(`summarize_chunk` / `merge_summaries`). -/
inductive PyError where
  | validationError
  | repairFailure
  | apiFailure
deriving DecidableEq

/-- The outcome of `client.chat.completions.create`: success with
response text, `BadRequestError` carrying a `failed_generation` payload,
or any other failure (uncaught by the handlers in the source). -/
inductive ApiResult where
  | ok (content : RawText)
  | badRequest (failed_generation : RawText)
  | failure

/-- The response-processing protocol shared verbatim by `summarize_chunk`
and `merge_summaries` (src/transcript_summarizer.py:84-115 and 127-161):
strict parse; on `BadRequestError` repair the partial payload and
revalidate; on `ValidationError` repair the raw text and revalidate; a
failure inside a handler propagates (hard error, no further fallback).
`repair` is the external `json_repair.repair_json(..., return_objects=True)`
collaborator. -/
def processResponse (repair : RawText → Option JVal) :
    ApiResult → Except PyError ResponseModel
  | .ok content =>
      match model_validate_json content with
      | some r => Except.ok r
      | none =>
          match repair content with
          | some v =>
              match model_validate v with
              | some r => Except.ok r
              | none => Except.error PyError.validationError
          | none => Except.error PyError.repairFailure
  | .badRequest fg =>
      match repair fg with
      | some v =>
          match model_validate v with
          | some r => Except.ok r
          | none => Except.error PyError.validationError
      | none => Except.error PyError.repairFailure
  | .failure => Except.error PyError.apiFailure

/-- One request to the LLM completion API, as assembled by
`summarize_chunk` / `merge_summaries`: system prompt, user content,
model name, `max_tokens = 8000`, JSON response format. -/
structure LLMRequest where
  system : String
  user : List Char
  modelName : String
  maxTokens : Nat
  jsonFormat : Bool
deriving DecidableEq

/-- The request issued by `summarize_chunk`: the chunk wrapped in
`<chunk>` tags under the chunk-summarizer system prompt. -/
def mkChunkRequest (modelName : String) (chunk : List Char) : LLMRequest :=
  ⟨CHUNK_SUMMARIZER_PROMPT,
   "<chunk>\n\n".toList ++ chunk ++ "\n\n</chunk>".toList,
   modelName, 8000, true⟩

/-- The request issued by `merge_summaries`: the partial summaries joined
by blank lines (`"\n\n".join(summaries)`), wrapped in `<summaries>` tags
under the merger system prompt. -/
def mkMergeRequest (modelName : String) (summaries : List (List Char)) :
    LLMRequest :=
  ⟨SUMMARIES_MERGER_PROMPT,
   "<summaries>\n\n".toList ++ joinSep summaries ++ "\n\n</summaries>".toList,
   modelName, 8000, true⟩

/-- Collect the results of a list of fallible computations, propagating
the first failure (the behaviour of iterating `executor.map` results in
order). -/
def collectExcept {E A : Type} : List (Except E A) → Except E (List A)
  | [] => Except.ok []
  | Except.error e :: _ => Except.error e
  | Except.ok a :: rest => (collectExcept rest).map (fun l => a :: l)

namespace TranscriptSummarizer

/-- `TranscriptSummarizer.summarize_chunk`
(src/transcript_summarizer.py:71-115): one LLM call on the chunk followed
by the parse/repair protocol; only the `summary` field is returned.  The
`language` parameter is accepted and ignored, exactly as in the source. -/
def summarize_chunk (oracle : LLMRequest → ApiResult)
    (repair : RawText → Option JVal) (modelName : String)
    (chunk : List Char) (language : String) : Except PyError (List Char) :=
  (processResponse repair (oracle (mkChunkRequest modelName chunk))).map
    (fun r => r.summary.toList)

/-- `TranscriptSummarizer.merge_summaries`
(src/transcript_summarizer.py:117-161): one LLM call on the joined
summaries with the same parse/repair protocol. -/
def merge_summaries (oracle : LLMRequest → ApiResult)
    (repair : RawText → Option JVal) (modelName : String)
    (summaries : List (List Char)) : Except PyError (List Char) :=
  (processResponse repair (oracle (mkMergeRequest modelName summaries))).map
    (fun r => r.summary.toList)

/-- `TranscriptSummarizer.summarize`
(src/transcript_summarizer.py:163-188): chunk, summarize each chunk (the
thread pool's `executor.map` preserves list order), then merge.  Besides
the result, the model returns the list of LLM requests issued, so that
claims about the requests can be stated. -/
def summarize (oracle : LLMRequest → ApiResult)
    (repair : RawText → Option JVal) (modelName : String)
    (maxChunkSize : Nat) (transcript : List Char) (language : String) :
    Except PyError (List Char) × List LLMRequest :=
  let chunks := split_in_chunks maxChunkSize transcript
  let chunkReqs := chunks.map (mkChunkRequest modelName)
  match collectExcept
      (chunks.map (fun c => summarize_chunk oracle repair modelName c language)) with
  | Except.error e => (Except.error e, chunkReqs)
  | Except.ok summaries =>
      (merge_summaries oracle repair modelName summaries,
       chunkReqs ++ [mkMergeRequest modelName summaries])

end TranscriptSummarizer

/-! ## Claim C6 -/

/-- C6: for every LLM response (successful response text, or
`failed_generation` payload of a `BadRequestError`) that is valid JSON
but whose object has no `summary` field, and any repair collaborator that
is the identity on already-valid JSON (the defining property of
`json_repair` on parseable input), `summarize_chunk` raises the hard
error: strict validation fails, the repaired object still lacks the
required `summary` string field, and the `ValidationError` raised inside
the handler propagates with no further fallback.  In particular a
`ResponseModel` with an absent summary is never produced (by construction
`ResponseModel.summary` is a string), which settles the claimed
disjunction through its hard-error branch. -/
theorem C6_missing_summary_is_hard_error
    (oracle : LLMRequest → ApiResult) (repair : RawText → Option JVal)
    (modelName : String) (chunk : List Char) (language : String)
    (fields : List (String × JVal))
    (hrepair : ∀ v, repair (RawText.jsonText v) = some v)
    (hmiss : lookupField "summary" fields = none)
    (hresp : oracle (mkChunkRequest modelName chunk) =
        ApiResult.ok (RawText.jsonText (JVal.obj fields)) ∨
      oracle (mkChunkRequest modelName chunk) =
        ApiResult.badRequest (RawText.jsonText (JVal.obj fields))) :
    TranscriptSummarizer.summarize_chunk oracle repair modelName chunk language =
      Except.error PyError.validationError := by
  have hval : model_validate (JVal.obj fields) = none := by
    show (match (lookupField "scratchpad" fields).bind asString,
          (lookupField "summary" fields).bind asString with
      | some sc, some su => some (⟨sc, su⟩ : ResponseModel)
      | _, _ => none) = none
    rw [hmiss]
    cases (lookupField "scratchpad" fields).bind asString <;> rfl
  unfold TranscriptSummarizer.summarize_chunk
  rcases hresp with hresp | hresp <;>
    rw [hresp] <;>
    simp [processResponse, model_validate_json, parseJson, hrepair, hval,
      Except.map]

/-- Identity-on-valid-JSON repair collaborator used in witnesses. -/
def idRepair : RawText → Option JVal
  | RawText.jsonText v => some v
  | RawText.plainText _ => none

/-- C6, witness: concrete instantiation with a response that is valid
JSON containing only a `scratchpad` field. -/
theorem C6_witness :
    TranscriptSummarizer.summarize_chunk
      (fun _ => ApiResult.ok (RawText.jsonText
        (JVal.obj [("scratchpad", JVal.str "notes")])))
      idRepair "llama3-8b-8192" "some chunk".toList "en" =
      Except.error PyError.validationError :=
  C6_missing_summary_is_hard_error _ idRepair "llama3-8b-8192"
    "some chunk".toList "en" [("scratchpad", JVal.str "notes")]
    (fun v => rfl) rfl (Or.inl rfl)

/-! ## Claim C8 -/

/-- C8: the `language` parameter does not alter the pipeline's behaviour:
for the same transcript, the same LLM oracle and the same repair
collaborator, `TranscriptSummarizer.summarize` issues exactly the same
requests (hence the same chunks) and produces exactly the same result for
any two language values.  The parameter is passed to `summarize_chunk`,
which ignores it, exactly as in the source. -/
theorem C8_language_invariance
    (oracle : LLMRequest → ApiResult) (repair : RawText → Option JVal)
    (modelName : String) (maxChunkSize : Nat) (transcript : List Char)
    (l1 l2 : String) :
    TranscriptSummarizer.summarize oracle repair modelName maxChunkSize
        transcript l1 =
      TranscriptSummarizer.summarize oracle repair modelName maxChunkSize
        transcript l2 := rfl

/-! ## The asynchronous orchestrator and the gather model (towards C9) -/

namespace AsyncTranscriptSummarizer

/-- `AsyncTranscriptSummarizer.summarize_chunk`
(src/transcript_summarizer.py:240-284), a verbatim copy of the
synchronous implementation. -/
def summarize_chunk (oracle : LLMRequest → ApiResult)
    (repair : RawText → Option JVal) (modelName : String)
    (chunk : List Char) (language : String) : Except PyError (List Char) :=
  (processResponse repair (oracle (mkChunkRequest modelName chunk))).map
    (fun r => r.summary.toList)

/-- `AsyncTranscriptSummarizer.merge_summaries`
(src/transcript_summarizer.py:286-330), a verbatim copy of the
synchronous implementation. -/
def merge_summaries (oracle : LLMRequest → ApiResult)
    (repair : RawText → Option JVal) (modelName : String)
    (summaries : List (List Char)) : Except PyError (List Char) :=
  (processResponse repair (oracle (mkMergeRequest modelName summaries))).map
    (fun r => r.summary.toList)

/-- The completion events of the concurrently launched chunk tasks, in
completion order: `sched` lists the task indices in the order their
network calls return; each event carries the task's index and its result.
Indices outside the task list produce no event. -/
def gatherArrivals (tasks : List (Except PyError (List Char)))
    (sched : List Nat) : List (Nat × Except PyError (List Char)) :=
  sched.filterMap (fun i => (tasks.get? i).map (fun r => (i, r)))

/-- The first failure in completion order (what `asyncio.gather` raises
when a task fails). -/
def firstFailure (arr : List (Nat × Except PyError (List Char))) :
    Option PyError :=
  arr.findSome? (fun p => match p.2 with
    | Except.error e => some e
    | Except.ok _ => none)

/-- Find the completion event of task `k`. -/
def assocFind {A : Type} (k : Nat) : List (Nat × A) → Option A
  | [] => none
  | (k2, v) :: rest => if k = k2 then some v else assocFind k rest

/-- Model of `asyncio.gather(*chunk_coroutines)`: tasks complete in the
order given by `sched`; if any task failed, the first failure (in
completion order) is raised; otherwise the results are delivered slotted
by task index, i.e. in the original launch order, regardless of `sched`. -/
def gather (tasks : List (Except PyError (List Char))) (sched : List Nat) :
    Except PyError (List (List Char)) :=
  match firstFailure (gatherArrivals tasks sched) with
  | some e => Except.error e
  | none => Except.ok ((List.range tasks.length).filterMap
      (fun i => (assocFind i (gatherArrivals tasks sched)).bind (fun r =>
        match r with
        | Except.ok v => some v
        | Except.error _ => none)))

/-- `AsyncTranscriptSummarizer.summarize`
(src/transcript_summarizer.py:332-355): chunk, launch all chunk
summarizations concurrently, gather, merge.  Besides the result, the
model returns the list of summaries passed to `merge_summaries` (`none`
when the merge is never reached), so that the claim about merge input
order can be stated.  `sched` is the completion schedule of the
concurrent calls. -/
def summarize (oracle : LLMRequest → ApiResult)
    (repair : RawText → Option JVal) (modelName : String)
    (maxChunkSize : Nat) (transcript : List Char) (language : String)
    (sched : List Nat) :
    Except PyError (List Char) × Option (List (List Char)) :=
  match gather ((split_in_chunks maxChunkSize transcript).map
      (fun c => summarize_chunk oracle repair modelName c language)) sched with
  | Except.error e => (Except.error e, none)
  | Except.ok summaries =>
      (merge_summaries oracle repair modelName summaries, some summaries)

end AsyncTranscriptSummarizer

/-! ## Gather reorders nothing (towards C9) -/

theorem assocFind_gatherArrivals_of_not_mem
    (tasks : List (Except PyError (List Char))) (k : Nat)
    (hk : tasks.get? k = none) :
    ∀ sched, AsyncTranscriptSummarizer.assocFind k (AsyncTranscriptSummarizer.gatherArrivals tasks sched) = none := by
  intro sched
  induction sched with
  | nil => rfl
  | cons i rest ih =>
    unfold AsyncTranscriptSummarizer.gatherArrivals at *
    simp only [List.filterMap_cons]
    cases hi : tasks.get? i with
    | none => simpa using ih
    | some r =>
      simp only [Option.map_some']
      show (if k = i then some r else
        AsyncTranscriptSummarizer.assocFind k (rest.filterMap
          (fun i => (tasks.get? i).map (fun r => (i, r))))) = none
      by_cases hki : k = i
      · subst hki
        rw [hk] at hi
        cases hi
      · rw [if_neg hki]
        simpa using ih

theorem assocFind_gatherArrivals
    (tasks : List (Except PyError (List Char))) (k : Nat) (r : Except PyError (List Char))
    (hk : tasks.get? k = some r) :
    ∀ sched, k ∈ sched →
    AsyncTranscriptSummarizer.assocFind k (AsyncTranscriptSummarizer.gatherArrivals tasks sched) = some r := by
  intro sched
  induction sched with
  | nil => intro h; cases h
  | cons i rest ih =>
    intro hmem
    unfold AsyncTranscriptSummarizer.gatherArrivals at *
    simp only [List.filterMap_cons]
    by_cases hki : k = i
    · subst hki
      rw [hk]
      simp only [Option.map_some']
      show (if k = k then some r else _) = some r
      rw [if_pos rfl]
    · have hmem' : k ∈ rest := by
        rcases List.mem_cons.mp hmem with h | h
        · exact absurd h hki
        · exact h
      cases hi : tasks.get? i with
      | none => simpa using ih hmem'
      | some r2 =>
        simp only [Option.map_some']
        show (if k = i then some r2 else _) = some r
        rw [if_neg hki]
        simpa using ih hmem'

theorem mem_snd_of_mem_gatherArrivals
    {tasks : List (Except PyError (List Char))} {sched : List Nat}
    {p : Nat × Except PyError (List Char)}
    (h : p ∈ AsyncTranscriptSummarizer.gatherArrivals tasks sched) :
    p.2 ∈ tasks := by
  unfold AsyncTranscriptSummarizer.gatherArrivals at h
  obtain ⟨i, _, hmap⟩ := List.mem_filterMap.mp h
  cases hi : tasks.get? i with
  | none =>
    rw [hi] at hmap
    cases hmap
  | some r =>
    rw [hi] at hmap
    simp only [Option.map_some', Option.some.injEq] at hmap
    subst hmap
    exact List.get?_mem hi

theorem filterMap_get?_range {A : Type} (l : List A) :
    (List.range l.length).filterMap (fun i => l.get? i) = l := by
  induction l with
  | nil => rfl
  | cons a t ih =>
    rw [show (a :: t).length = t.length + 1 from rfl]
    rw [List.range_succ_eq_map]
    rw [List.filterMap_cons]
    simp only [List.get?_cons_zero, List.filterMap_map]
    rw [show ((fun i => (a :: t).get? i) ∘ Nat.succ) = (fun i => t.get? i) by
      funext i
      simp]
    rw [ih]

/-- `asyncio.gather` over tasks that all succeed delivers the results in
launch order, whatever the completion schedule (any permutation of the
task indices). -/
theorem gather_ok_of_perm (summaries : List (List Char)) (sched : List Nat)
    (hperm : sched.Perm (List.range summaries.length)) :
    AsyncTranscriptSummarizer.gather (summaries.map Except.ok) sched =
      Except.ok summaries := by
  unfold AsyncTranscriptSummarizer.gather
  have hff : AsyncTranscriptSummarizer.firstFailure
      (AsyncTranscriptSummarizer.gatherArrivals (summaries.map Except.ok) sched) =
      none := by
    unfold AsyncTranscriptSummarizer.firstFailure
    rw [List.findSome?_eq_none_iff]
    intro p hp
    have hsnd := mem_snd_of_mem_gatherArrivals hp
    obtain ⟨v, _, heq⟩ := List.mem_map.mp hsnd
    rw [← heq]
  rw [hff]
  have hmain : (List.range (summaries.map Except.ok :
        List (Except PyError (List Char))).length).filterMap
      (fun i => (AsyncTranscriptSummarizer.assocFind i
          (AsyncTranscriptSummarizer.gatherArrivals (summaries.map Except.ok) sched)).bind
        (fun r => match r with
          | Except.ok v => some v
          | Except.error _ => none)) = summaries := by
    rw [List.length_map]
    rw [List.filterMap_congr (g := fun i => summaries.get? i) ?_]
    · exact filterMap_get?_range summaries
    · intro i hi
      have hilt : i < summaries.length := List.mem_range.mp hi
      obtain ⟨v, hv⟩ : ∃ v, summaries.get? i = some v := by
        cases h : summaries.get? i with
        | none =>
          rw [List.get?_eq_none] at h
          omega
        | some v => exact ⟨v, rfl⟩
      have hk : (summaries.map Except.ok :
          List (Except PyError (List Char))).get? i = some (Except.ok v) := by
        rw [List.get?_map, hv]
        rfl
      have hmem : i ∈ sched := hperm.mem_iff.mpr hi
      rw [assocFind_gatherArrivals (summaries.map Except.ok) i (Except.ok v) hk
        sched hmem]
      have hv' : summaries[i]? = some v := by
        rw [← List.get?_eq_getElem?]
        exact hv
      simp [hv']
  rw [hmain]

/-! ## Claim C9 -/

/-- C9: whenever every chunk summarization succeeds, the list of partial
summaries passed to `merge_summaries` by the asynchronous orchestrator is
exactly the chunk summaries in the order the chunks were emitted by
`split_in_chunks` (the i-th merge input is the summary of the i-th
chunk), for every completion schedule of the concurrent LLM calls (any
permutation of the task indices): `asyncio.gather` slots results by
launch position, not by completion time.  (The synchronous orchestrator
preserves order trivially via `executor.map`, a deterministic
order-preserving map — see `TranscriptSummarizer.summarize`.) -/
theorem C9_merge_input_in_chunk_emission_order
    (oracle : LLMRequest → ApiResult) (repair : RawText → Option JVal)
    (modelName : String) (maxChunkSize : Nat) (transcript : List Char)
    (language : String) (sched : List Nat) (summaries : List (List Char))
    (hperm : sched.Perm (List.range
      (AsyncTranscriptSummarizer.split_in_chunks maxChunkSize transcript).length))
    (hok : (AsyncTranscriptSummarizer.split_in_chunks maxChunkSize transcript).map
        (fun c => AsyncTranscriptSummarizer.summarize_chunk oracle repair
          modelName c language) =
      summaries.map Except.ok) :
    (AsyncTranscriptSummarizer.summarize oracle repair modelName maxChunkSize
        transcript language sched).2 = some summaries := by
  have hlen : (AsyncTranscriptSummarizer.split_in_chunks maxChunkSize
      transcript).length = summaries.length := by
    have := congrArg List.length hok
    simpa using this
  have hperm' : sched.Perm (List.range summaries.length) := by
    rw [← hlen]
    exact hperm
  unfold AsyncTranscriptSummarizer.summarize
  rw [hok]
  rw [gather_ok_of_perm summaries sched hperm']

/-- Constant well-formed LLM response used in the C9 witness. -/
def goodResponse : ApiResult :=
  ApiResult.ok (RawText.jsonText (JVal.obj
    [("scratchpad", JVal.str "notes"), ("summary", JVal.str "S")]))

/-- C9, witness: two chunks, completion schedule reversed (`[1, 0]`), and
the merge input is still the summaries in chunk order. -/
theorem C9_witness :
    (AsyncTranscriptSummarizer.summarize (fun _ => goodResponse) idRepair
        "llama3-8b-8192" 1 "a\n\nb".toList "en" [1, 0]).2 =
      some ["S".toList, "S".toList] :=
  C9_merge_input_in_chunk_emission_order (fun _ => goodResponse) idRepair
    "llama3-8b-8192" 1 "a\n\nb".toList "en" [1, 0] ["S".toList, "S".toList]
    (by decide) rfl

/-! ## The user-facing glue: `summarize(url, language)` in src/app.py -/

/-- Python `str.startswith`: is the first list an initial segment of the
second? -/
def startswith : List Char → List Char → Bool
  | [], _ => true
  | _ :: _, [] => false
  | c :: cs, d :: ds => c = d && startswith cs ds

namespace App

/-- Outcome of one request to `summarize(url, language)`: a returned
summary string, a `gr.Error` with its message, or an exception that no
handler in `summarize` catches (e.g. a failing Redis `get`). -/
inductive ReqOutcome where
  | success (s : String)
  | grError (msg : String)
  | uncaughtException
deriving DecidableEq

/-- How many times each external collaborator ran during the request. -/
structure RunStats where
  fetchCalls : Nat
  pipelineCalls : Nat
deriving DecidableEq

/-- The behaviour of the external collaborators for one request:
`getVideoId` is `downloader.get_video_id`, `fetchTranscript` is
`downloader.get_transcript`, `pipeline` is `summarizer.summarize`
(transcript and language code to summary — one or more LLM calls), and
`getFails`/`setFails` tell which Redis operations raise. -/
structure Env where
  getVideoId : String → String
  fetchTranscript : String → String → Except Unit String
  pipeline : String → String → Except Unit String
  getFails : String → Bool
  setFails : String → Bool

/-- The Redis cache contents: key to stored string (values are stored and
returned as UTF-8 bytes in the source; decoding is the identity here). -/
def Cache : Type := String → Option String

/-- The result of one request: outcome, cache contents afterwards, and
collaborator call counts. -/
structure RunResult where
  outcome : ReqOutcome
  cache : Cache
  stats : RunStats

/-- `validate_request` (src/app.py:20-23). -/
def validate_request (url : String) : Bool :=
  startswith "https://www.youtube.com/".toList url.toList

/-- The `language_codes` dict (src/app.py:35); a missing key raises
`KeyError` (modelled as `none`). -/
def language_codes (language : String) : Option String :=
  if language = "french" then some "fr"
  else if language = "english" then some "en"
  else none

/-- Python `str.lower()` (used as `language.lower()`, src/app.py:34),
character-wise lowering. -/
def pyLower (s : String) : String := String.mk (s.data.map Char.toLower)

/-- Python truthiness of a Redis `get` result: `None` and the empty bytes
`b""` are both falsy, so an empty cached value behaves as a miss. -/
def truthy (o : Option String) : Option String :=
  match o with
  | some s => if s = "" then none else some s
  | none => none

/-- `summarize` (src/app.py:26-67): validate the URL, derive the video
id, check the summary cache, check the transcript cache, acquire and
cache the transcript if needed (any exception there, including a failing
cache `set` or the `KeyError` of an unsupported language, becomes the
acquisition `gr.Error`), then run the summarization pipeline and cache
the summary (any exception there becomes the summarization `gr.Error`).
The two Redis `get` calls are outside every `try` block, so their
failures propagate uncaught. -/
def summarize (env : Env) (cache : Cache) (url language : String) :
    RunResult :=
  if !validate_request url then
    ⟨ReqOutcome.grError "Invalid YouTube URL. Please enter a valid YouTube URL.",
     cache, ⟨0, 0⟩⟩
  else
    let vid := env.getVideoId url
    let lang := pyLower language
    let skey := vid ++ "_summary"
    let tkey := vid ++ "_transcript"
    if env.getFails skey then ⟨ReqOutcome.uncaughtException, cache, ⟨0, 0⟩⟩
    else
      match truthy (cache skey) with
      | some s => ⟨ReqOutcome.success s, cache, ⟨0, 0⟩⟩
      | none =>
        if env.getFails tkey then ⟨ReqOutcome.uncaughtException, cache, ⟨0, 0⟩⟩
        else
          match truthy (cache tkey) with
          | some t => summarizeStage env cache vid lang t 0
          | none =>
            match language_codes lang with
            | none =>
              ⟨ReqOutcome.grError "An error occurred while fetching or generating the transcript of the video.",
               cache, ⟨0, 0⟩⟩
            | some code =>
              match env.fetchTranscript url code with
              | Except.error _ =>
                ⟨ReqOutcome.grError "An error occurred while fetching or generating the transcript of the video.",
                 cache, ⟨1, 0⟩⟩
              | Except.ok t =>
                if env.setFails tkey then
                  ⟨ReqOutcome.grError "An error occurred while fetching or generating the transcript of the video.",
                   cache, ⟨1, 0⟩⟩
                else
                  summarizeStage env
                    (fun k => if k = tkey then some t else cache k) vid lang t 1
where
  /-- The second `try` block of `summarize` (src/app.py:55-61): evaluate
  `language_codes[language]`, run the pipeline, cache the summary; any
  exception becomes the summarization `gr.Error`. -/
  summarizeStage (env : Env) (cache : Cache) (vid lang transcript : String)
      (fetchCalls : Nat) : RunResult :=
    let skey := vid ++ "_summary"
    match language_codes lang with
    | none =>
      ⟨ReqOutcome.grError "An error occurred while summarizing the transcript of the video.",
       cache, ⟨fetchCalls, 0⟩⟩
    | some code =>
      match env.pipeline transcript code with
      | Except.error _ =>
        ⟨ReqOutcome.grError "An error occurred while summarizing the transcript of the video.",
         cache, ⟨fetchCalls, 1⟩⟩
      | Except.ok s =>
        if env.setFails skey then
          ⟨ReqOutcome.grError "An error occurred while summarizing the transcript of the video.",
           cache, ⟨fetchCalls, 1⟩⟩
        else
          ⟨ReqOutcome.success s,
           fun k => if k = skey then some s else cache k, ⟨fetchCalls, 1⟩⟩

end App

/-! ## Concrete collaborator behaviours used in app-level counterexamples -/

/-- All collaborators succeed, no cache operation fails. -/
def okEnv : App.Env :=
  ⟨fun _ => "vid", fun _ _ => Except.ok "the transcript",
   fun _ _ => Except.ok "the summary", fun _ => false, fun _ => false⟩

/-- Same, except the Redis `set` of the summary key raises. -/
def summarySetFailEnv : App.Env :=
  ⟨fun _ => "vid", fun _ _ => Except.ok "the transcript",
   fun _ _ => Except.ok "the summary", fun _ => false,
   fun k => k = "vid_summary"⟩

/-- A valid YouTube URL used in the app-level concrete instances. -/
def aUrl : String := "https://www.youtube.com/watch?v=x"

/-! ## Claim C1 -/

/-- C1, counterexample.  The claim "a cache write failure is a no-op and
the computed summary is still returned" is false: with every collaborator
succeeding but the summary-key `set` raising, the pipeline runs (stats
`⟨1, 1⟩`: one transcript fetch, one pipeline run that produced the
summary), yet the caller gets the summarization `gr.Error` instead of the
computed summary, because the `set` sits inside the same `try` block as
the pipeline call. -/
theorem C1_counterexample :
    (App.summarize summarySetFailEnv (fun _ => none) aUrl "english").outcome =
      App.ReqOutcome.grError
        "An error occurred while summarizing the transcript of the video." ∧
    (App.summarize summarySetFailEnv (fun _ => none) aUrl "english").stats =
      ⟨1, 1⟩ :=
  ⟨rfl, rfl⟩

/-- C1, amended.  Cache failures are not harmless: (1) when the summary
cache `set` fails after the pipeline computed a summary, the request
fails with the summarization error and the computed summary is discarded
(cache unchanged); (2) a failing cache `get` is outside every `try` block
and propagates as an uncaught exception, failing the request. -/
theorem C1_cache_failures_fail_request :
    (∀ (env : App.Env) (cache : App.Cache) (url language t s code : String),
      App.validate_request url = true →
      env.getFails (env.getVideoId url ++ "_summary") = false →
      App.truthy (cache (env.getVideoId url ++ "_summary")) = none →
      env.getFails (env.getVideoId url ++ "_transcript") = false →
      App.truthy (cache (env.getVideoId url ++ "_transcript")) = some t →
      App.language_codes (App.pyLower language) = some code →
      env.pipeline t code = Except.ok s →
      env.setFails (env.getVideoId url ++ "_summary") = true →
      App.summarize env cache url language =
        ⟨App.ReqOutcome.grError
          "An error occurred while summarizing the transcript of the video.",
         cache, ⟨0, 1⟩⟩) ∧
    (∀ (env : App.Env) (cache : App.Cache) (url language : String),
      App.validate_request url = true →
      env.getFails (env.getVideoId url ++ "_summary") = true →
      App.summarize env cache url language =
        ⟨App.ReqOutcome.uncaughtException, cache, ⟨0, 0⟩⟩) := by
  constructor
  · intro env cache url language t s code hurl hgs hmiss hgt hthit hcode hpipe hset
    unfold App.summarize App.summarize.summarizeStage
    simp [hurl, hgs, hmiss, hgt, hthit, hcode, hpipe, hset]
  · intro env cache url language hurl hgs
    unfold App.summarize
    simp [hurl, hgs]

/-- C1, witness: both amended behaviours at concrete inputs. -/
theorem C1_witness :
    App.summarize summarySetFailEnv
        (fun k => if k = "vid_transcript" then some "the transcript" else none)
        aUrl "english" =
      ⟨App.ReqOutcome.grError
        "An error occurred while summarizing the transcript of the video.",
       (fun k => if k = "vid_transcript" then some "the transcript" else none),
       ⟨0, 1⟩⟩ :=
  C1_cache_failures_fail_request.1 summarySetFailEnv
    (fun k => if k = "vid_transcript" then some "the transcript" else none)
    aUrl "english" "the transcript" "the summary" "en"
    rfl rfl rfl rfl rfl rfl rfl rfl

/-! ## Claim C3 -/

/-- C3, counterexample.  The claim "a language outside
english/french is rejected as a caller-visible input error before the
core pipeline runs" is false: there is no language validation at all.
With a cached summary present, a request with language `"german"` is not
rejected — it succeeds and returns the cached summary. -/
theorem C3_counterexample :
    (App.summarize okEnv
        (fun k => if k = "vid_summary" then some "CACHED" else none)
        aUrl "german").outcome = App.ReqOutcome.success "CACHED" :=
  rfl

/-- C3, amended.  An unsupported language is never rejected up front:
(1) with a cached summary the request succeeds, ignoring the language;
(2) with a cached transcript the `KeyError` from `language_codes[language]`
is caught by the summarization handler and surfaces as the summarization
error (after the cache reads, with no pipeline LLM call);
(3) with nothing cached it is caught by the acquisition handler and
surfaces as the transcript-fetching error (before any fetch call). -/
theorem C3_unsupported_language_not_rejected_before_pipeline :
    (∀ (env : App.Env) (cache : App.Cache) (url language s : String),
      App.validate_request url = true →
      env.getFails (env.getVideoId url ++ "_summary") = false →
      App.truthy (cache (env.getVideoId url ++ "_summary")) = some s →
      App.summarize env cache url language =
        ⟨App.ReqOutcome.success s, cache, ⟨0, 0⟩⟩) ∧
    (∀ (env : App.Env) (cache : App.Cache) (url language t : String),
      App.validate_request url = true →
      env.getFails (env.getVideoId url ++ "_summary") = false →
      App.truthy (cache (env.getVideoId url ++ "_summary")) = none →
      env.getFails (env.getVideoId url ++ "_transcript") = false →
      App.truthy (cache (env.getVideoId url ++ "_transcript")) = some t →
      App.language_codes (App.pyLower language) = none →
      App.summarize env cache url language =
        ⟨App.ReqOutcome.grError
          "An error occurred while summarizing the transcript of the video.",
         cache, ⟨0, 0⟩⟩) ∧
    (∀ (env : App.Env) (cache : App.Cache) (url language : String),
      App.validate_request url = true →
      env.getFails (env.getVideoId url ++ "_summary") = false →
      App.truthy (cache (env.getVideoId url ++ "_summary")) = none →
      env.getFails (env.getVideoId url ++ "_transcript") = false →
      App.truthy (cache (env.getVideoId url ++ "_transcript")) = none →
      App.language_codes (App.pyLower language) = none →
      App.summarize env cache url language =
        ⟨App.ReqOutcome.grError
          "An error occurred while fetching or generating the transcript of the video.",
         cache, ⟨0, 0⟩⟩) := by
  refine ⟨?_, ?_, ?_⟩
  · intro env cache url language s hurl hgs hhit
    unfold App.summarize
    simp [hurl, hgs, hhit]
  · intro env cache url language t hurl hgs hmiss hgt hthit hlang
    unfold App.summarize App.summarize.summarizeStage
    simp [hurl, hgs, hmiss, hgt, hthit, hlang]
  · intro env cache url language hurl hgs hmiss hgt htmiss hlang
    unfold App.summarize
    simp [hurl, hgs, hmiss, hgt, htmiss, hlang]

/-- C3, witness: part (2) of the amended theorem at concrete inputs
(cached transcript, language `"german"`). -/
theorem C3_witness :
    App.summarize okEnv
        (fun k => if k = "vid_transcript" then some "the transcript" else none)
        aUrl "german" =
      ⟨App.ReqOutcome.grError
        "An error occurred while summarizing the transcript of the video.",
       (fun k => if k = "vid_transcript" then some "the transcript" else none),
       ⟨0, 0⟩⟩ :=
  C3_unsupported_language_not_rejected_before_pipeline.2.1 okEnv
    (fun k => if k = "vid_transcript" then some "the transcript" else none)
    aUrl "german" "the transcript" rfl rfl rfl rfl rfl rfl

/-! ## Claim C7 -/

theorem truthy_some {o : Option String} {s : String}
    (h : App.truthy o = some s) : o = some s ∧ s ≠ "" := by
  cases o with
  | none => cases h
  | some v =>
    have h' : (if v = "" then none else some v) = some s := h
    by_cases hv : v = ""
    · rw [if_pos hv] at h'
      cases h'
    · rw [if_neg hv] at h'
      cases h'
      exact ⟨rfl, hv⟩

/-- After any request that returns a summary `s`, the summary cache key
holds `s`: either the request was a cache hit (cache unchanged, key
already `s`) or the pipeline ran and the successful `set` stored `s`. -/
theorem success_cache_holds_summary
    (env : App.Env) (cache : App.Cache) (url language s : String)
    (h : (App.summarize env cache url language).outcome =
      App.ReqOutcome.success s) :
    (App.summarize env cache url language).cache
      (env.getVideoId url ++ "_summary") = some s := by
  unfold App.summarize at h ⊢
  by_cases hurl : App.validate_request url
  all_goals simp only [hurl, Bool.not_true, Bool.not_false, if_true, if_false,
    Bool.false_eq_true, reduceIte] at h ⊢
  · by_cases hgs : env.getFails (env.getVideoId url ++ "_summary")
    all_goals simp only [hgs, if_true, if_false, reduceIte] at h ⊢
    · cases h
    · cases hhit : App.truthy (cache (env.getVideoId url ++ "_summary")) with
      | some v =>
        simp only [hhit] at h ⊢
        cases h
        exact (truthy_some hhit).1
      | none =>
        simp only [hhit] at h ⊢
        by_cases hgt : env.getFails (env.getVideoId url ++ "_transcript")
        all_goals simp only [hgt, if_true, if_false, reduceIte] at h ⊢
        · cases h
        · have stage : ∀ (c2 : App.Cache) (t : String) (n : Nat),
              (App.summarize.summarizeStage env c2 (env.getVideoId url)
                (App.pyLower language) t n).outcome = App.ReqOutcome.success s →
              (App.summarize.summarizeStage env c2 (env.getVideoId url)
                (App.pyLower language) t n).cache
                  (env.getVideoId url ++ "_summary") = some s := by
            intro c2 t n hst
            unfold App.summarize.summarizeStage at hst ⊢
            cases hcode : App.language_codes (App.pyLower language) with
            | none => simp only [hcode] at hst ⊢; cases hst
            | some code =>
              simp only [hcode] at hst ⊢
              cases hpipe : env.pipeline t code with
              | error e => simp only [hpipe] at hst ⊢; cases hst
              | ok v =>
                simp only [hpipe] at hst ⊢
                by_cases hset : env.setFails (env.getVideoId url ++ "_summary")
                all_goals simp only [hset, if_true, if_false, reduceIte] at hst ⊢
                · cases hst
                · cases hst
                  simp
          cases hthit : App.truthy (cache (env.getVideoId url ++ "_transcript")) with
          | some t =>
            simp only [hthit] at h ⊢
            exact stage cache t 0 h
          | none =>
            simp only [hthit] at h ⊢
            cases hcode : App.language_codes (App.pyLower language) with
            | none => simp only [hcode] at h ⊢; cases h
            | some code =>
              simp only [hcode] at h ⊢
              cases hfetch : env.fetchTranscript url code with
              | error e => simp only [hfetch] at h ⊢; cases h
              | ok t =>
                simp only [hfetch] at h ⊢
                by_cases hset : env.setFails (env.getVideoId url ++ "_transcript")
                all_goals simp only [hset, if_true, if_false, reduceIte] at h ⊢
                · cases h
                · exact stage _ t 1 h
  · cases h

/-- A non-empty cached summary short-circuits the whole request. -/
theorem cache_hit_short_circuit
    (env : App.Env) (cache : App.Cache) (url language s : String)
    (hurl : App.validate_request url = true)
    (hgs : env.getFails (env.getVideoId url ++ "_summary") = false)
    (hcache : cache (env.getVideoId url ++ "_summary") = some s)
    (hs : s ≠ "") :
    App.summarize env cache url language =
      ⟨App.ReqOutcome.success s, cache, ⟨0, 0⟩⟩ := by
  have hhit : App.truthy (cache (env.getVideoId url ++ "_summary")) = some s := by
    rw [hcache]
    show (if s = "" then none else some s) = some s
    rw [if_neg hs]
  unfold App.summarize
  simp [hurl, hgs, hhit]

/-- C7, counterexample.  The claim "whenever the `{video_id}_summary`
cache entry is present, `summarize` returns the cached string verbatim
and performs no transcript acquisition and no LLM calls" is false when the
cached value is the empty string: the entry is present (`some ""`), but
`if cached_summary:` treats empty bytes as a miss, so the request
re-fetches the transcript and re-runs the pipeline (stats `⟨1, 1⟩`) and
returns the freshly computed summary, not the cached value.  For the same
reason the round-trip property fails after a request whose computed
summary is the empty string. -/
theorem C7_counterexample :
    ((fun k => if k = "vid_summary" then some "" else none : App.Cache)
        "vid_summary" = some "") ∧
    (App.summarize okEnv
        (fun k => if k = "vid_summary" then some "" else none)
        aUrl "english").outcome = App.ReqOutcome.success "the summary" ∧
    (App.summarize okEnv
        (fun k => if k = "vid_summary" then some "" else none)
        aUrl "english").stats = ⟨1, 1⟩ :=
  ⟨rfl, rfl, rfl⟩

/-- C7, amended.  (1) Whenever the summary cache holds a non-empty value
`s` for the video (and the cache read does not fail), `summarize` returns
`s` verbatim with zero transcript fetches and zero pipeline (LLM) runs.
(2) Round trip: after any request that returned a non-empty summary `s`
(with cache reads succeeding), a repeated call with the same URL and
language against the resulting cache returns the identical `s` with zero
fetches and zero pipeline runs, and leaves the cache unchanged. -/
theorem C7_cached_summary_short_circuit_and_round_trip :
    (∀ (env : App.Env) (cache : App.Cache) (url language s : String),
      App.validate_request url = true →
      env.getFails (env.getVideoId url ++ "_summary") = false →
      cache (env.getVideoId url ++ "_summary") = some s →
      s ≠ "" →
      App.summarize env cache url language =
        ⟨App.ReqOutcome.success s, cache, ⟨0, 0⟩⟩) ∧
    (∀ (env : App.Env) (cache : App.Cache) (url language s : String),
      App.validate_request url = true →
      (∀ k, env.getFails k = false) →
      (App.summarize env cache url language).outcome =
        App.ReqOutcome.success s →
      s ≠ "" →
      App.summarize env (App.summarize env cache url language).cache
          url language =
        ⟨App.ReqOutcome.success s,
         (App.summarize env cache url language).cache, ⟨0, 0⟩⟩) := by
  constructor
  · intro env cache url language s hurl hgs hcache hs
    exact cache_hit_short_circuit env cache url language s hurl hgs hcache hs
  · intro env cache url language s hurl hgf hout hs
    exact cache_hit_short_circuit env _ url language s hurl (hgf _)
      (success_cache_holds_summary env cache url language s hout) hs

/-- C7, witness: a full round trip at concrete inputs — the first call
computes and caches, the second call returns the same summary with zero
pipeline runs. -/
theorem C7_witness :
    App.summarize okEnv
        (App.summarize okEnv (fun _ => none) aUrl "english").cache
        aUrl "english" =
      ⟨App.ReqOutcome.success "the summary",
       (App.summarize okEnv (fun _ => none) aUrl "english").cache, ⟨0, 0⟩⟩ :=
  C7_cached_summary_short_circuit_and_round_trip.2 okEnv (fun _ => none)
    aUrl "english" "the summary" rfl (fun _ => rfl) rfl (by decide)
